import Mathlib

/-!
Shallow embedding of `src/data_handler/handlers/loan_states/nostra_alpha/run.py`
(class `NostraAlphaStateComputation`): the event router (`process_event`), the
batch processor (`process_data`) and the ingestion loop (`run`).

The ledger type, the dispatch tables and the external collaborators (fetch,
persistence) live outside `src/` (in `events.py`, `abstractions.py` and
`handler_tools`), so they are modelled from the spec as parameters collected in
the structures `Env` (protocol environment) and `RunCfg` (loop collaborators).
-/

namespace NostraAlpha

/-- One raw event row, with exactly the fields `run.py` reads:
`from_address`, `key_name`, `block_number` (possibly missing, as `event.get`
may return `None`) and the intra-block ordering key `id`. -/
structure EventRecord where
  fromAddress : String
  keyName : String
  blockNumber : Option Nat
  id : Nat
deriving DecidableEq, Repr

/-- The comparison used by `sort_values(["block_number", "id"])`: ascending
lexicographic order on `(block_number, id)`, with a missing block number
sorting last (pandas puts NaN last). -/
def evLe (a b : EventRecord) : Bool :=
  match a.blockNumber, b.blockNumber with
  | some x, some y => if x < y then true else if y < x then false else a.id ≤ b.id
  | some _, none => true
  | none, some _ => false
  | none, none => a.id ≤ b.id

/-- `evLe` as a `Prop`-valued relation, for `List.insertionSort`. -/
def evLeR (a b : EventRecord) : Prop := evLe a b = true

instance : DecidableRel evLeR := fun a b => instDecidableEqBool (evLe a b) true

instance : IsTotal EventRecord evLeR where
  total a b := by
    obtain ⟨_, _, ab, ai⟩ := a
    obtain ⟨_, _, bb, bi⟩ := b
    unfold evLeR evLe
    rcases ab with _ | x <;> rcases bb with _ | y <;> simp <;> omega

instance : IsTrans EventRecord evLeR where
  trans a b c hab hbc := by
    obtain ⟨_, _, ab, ai⟩ := a
    obtain ⟨_, _, bb, bi⟩ := b
    obtain ⟨_, _, cb, ci⟩ := c
    unfold evLeR evLe at *
    rcases ab with _ | x <;> rcases bb with _ | y <;>
      rcases cb with _ | z <;> simp_all <;> omega

/-- Modelled from the spec: the protocol environment that `run.py` imports from
`events.py` and `handler_tools` (not under `src/`): the well-known
interest-rate-model address, the static dispatch tables of §4.1, and the ledger
(`NostraAlphaState`) with its fold operations (§4.2).

* `eventsMapping` models `NOSTRA_EVENTS_MAPPING` (`EVENTS_MAPPING`): the static
  map from event name to a canonical method name; its keys, together with
  `interestRatesKeys`, form the tracked superset used by `process_data`'s
  filter.
* `addressesToEvents` models `ADDRESSES_TO_EVENTS`: address to event category;
  `none` models a `KeyError` on lookup.
* `eventsMethodsMapping` models `EVENTS_METHODS_MAPPING` composed with
  `getattr` on the state object: the pair `(category, event_name)` resolves to
  the ledger fold operation, `none` models a failed lookup (`KeyError`).
  A fold operation returning `Except.error` models the method raising; the
  ledger value is then unchanged (the record's effect is skipped).
* `processIRM` models `NostraAlphaState.process_interest_rate_model_event`
  followed by `add_interest_rate_data` (the interest-rate-model fold of §4.2).
* `emptyLedger` models `NostraAlphaState()`, the fresh state built at the top
  of `process_data`. -/
structure Env (L : Type) where
  irmAddress : String
  eventsMapping : List (String × String)
  interestRatesKeys : List String
  addressesToEvents : String → Option String
  eventsMethodsMapping : String × String → Option (L → EventRecord → Except String L)
  processIRM : L → EventRecord → Except String L
  emptyLedger : L

/-- Embedding of `process_event` (lines 72-100 of `run.py`).

Input: the current `self.last_block`, the ledger, and the event (the unused
`method_name` argument is kept for faithfulness). Output: the new
`self.last_block`, the new ledger, and whether `logger.exception` fired
(the `except` clause).

The order of effects mirrors the source: the interest-rate-model address check
comes first and returns; otherwise the `block_number and block_number >=
self.last_block` guard runs, and on success `self.last_block` is assigned
*before* the two dictionary lookups, so a failed lookup still leaves
`last_block` updated. Every raise inside the `try` is caught and logged. -/
def processEvent {L : Type} (env : Env L) (_methodName : String) (lastBlock : Nat)
    (ledger : L) (ev : EventRecord) : Nat × L × Bool :=
  if ev.fromAddress = env.irmAddress then
    match env.processIRM ledger ev with
    | .ok st => (lastBlock, st, false)
    | .error _ => (lastBlock, ledger, true)
  else
    match ev.blockNumber with
    | none => (lastBlock, ledger, false)
    | some bn =>
      if bn ≠ 0 ∧ lastBlock ≤ bn then
        match env.addressesToEvents ev.fromAddress with
        | none => (bn, ledger, true)
        | some cat =>
          match env.eventsMethodsMapping (cat, ev.keyName) with
          | none => (bn, ledger, true)
          | some op =>
            match op ledger ev with
            | .ok st => (bn, st, false)
            | .error _ => (bn, ledger, true)
      else (lastBlock, ledger, false)

/-- The `for index, row in sorted_df.iterrows()` loop of `process_data`:
fold `process_event` over the ordered batch, threading `self.last_block` and
the ledger and counting logged per-record failures. -/
def foldEvents {L : Type} (env : Env L) : Nat × L × Nat → List EventRecord → Nat × L × Nat
  | acc, [] => acc
  | (lb, st, errs), ev :: rest =>
    let mn := ((env.eventsMapping.lookup ev.keyName).getD "")
    let res := processEvent env mn lb st ev
    foldEvents env (res.1, res.2.1, errs + (if res.2.2 then 1 else 0)) rest

/-- The order in which `process_data` folds a batch: keep the rows whose
`key_name` is in `EVENTS_MAPPING`'s keys plus `INTEREST_RATES_KEYS`
(`df_filtered`), then sort ascending by `(block_number, id)` (`sorted_df`). -/
def foldOrder (trackedKeys : List String) (data : List EventRecord) : List EventRecord :=
  List.insertionSort evLeR (data.filter (fun e => trackedKeys.contains e.keyName))

/-- Embedding of `process_data` (lines 43-70): build a fresh empty ledger,
filter and sort the batch, fold every row with `process_event`, and return the
snapshot (`get_result_df` is modelled from the spec as the read-only export of
the final ledger, §4.2). Also returns the final `self.last_block` and the
count of logged per-record failures, which the source leaves in `self` and the
log respectively. -/
def processData {L : Type} (env : Env L) (lastBlock : Nat) (data : List EventRecord) :
    L × Nat × Nat :=
  let trackedKeys := env.eventsMapping.map Prod.fst ++ env.interestRatesKeys
  let res := foldEvents env (lastBlock, env.emptyLedger, 0) (foldOrder trackedKeys data)
  (res.2.1, res.1, res.2.2)

/-- `self.last_block = 10854` at the top of `run` (line 109). -/
def initialLastBlock : Nat := 10854

/-- The hard-coded terminal block bound `647952` (line 113). -/
def lastBlockBound : Nat := 647952

/-- `max_retries = 1000000` (line 106). -/
def maxRetries : Nat := 1000000

/-- Modelled from the spec: the collaborators the loop inherits from
`LoanStateComputationBase` (not under `src/`): the upstream fetches for the
half-open page starting at the checkpoint (§6), the persistence calls
(`save_data`, `save_interest_rate_data`; an `Except.error` models a raise),
and the configured `PAGINATION_SIZE`. -/
structure RunCfg (L : Type) where
  paginationSize : Nat
  getData : Nat → List EventRecord
  getAddressesData : Nat → List EventRecord
  saveData : L → Except String Unit
  saveInterestRateData : Except String Unit

/-- Outcome of one body of the `while` loop of `run` (lines 113-139). -/
inductive StepRes (L : Type) where
  /-- The `break` on `last_block >= 647952` (lines 113-115). -/
  | brk (lastBlock retry : Nat)
  /-- The loop continues with new `last_block` and `retry`; `saved = none` on
  the empty-batch `continue` path, `saved = some (cp, snap)` when a snapshot
  `snap` was persisted for the batch fetched at checkpoint `cp`. -/
  | next (lastBlock retry : Nat) (saved : Option (Nat × L))
  /-- A persistence call raised; the exception propagates out of `run`. -/
  | fail (lastBlock retry : Nat) (msg : String)
deriving Repr, DecidableEq

/-- Embedding of one iteration of the `while` loop of `run` (after the
`retry < max_retries` test): check the terminal block bound, fetch the
interest-rate-model events and the ordinary events for the current
checkpoint, take the empty-batch path when — and only when — the *ordinary*
list `data` is empty (`if not data:`, line 122), otherwise process the
concatenation `interest_rate_data + data`, persist, and advance the
checkpoint by the pagination size. -/
def runStep {L : Type} (cfg : RunCfg L) (env : Env L) (lastBlock retry : Nat) : StepRes L :=
  if lastBlockBound ≤ lastBlock then .brk lastBlock retry
  else
    let irmData := cfg.getData lastBlock
    let data := cfg.getAddressesData lastBlock
    if data = [] then .next (lastBlock + cfg.paginationSize) (retry + 1) none
    else
      let pd := processData env lastBlock (irmData ++ data)
      match cfg.saveData pd.1 with
      | .error e => .fail pd.2.1 retry e
      | .ok _ =>
        match cfg.saveInterestRateData with
        | .error e => .fail pd.2.1 retry e
        | .ok _ => .next (pd.2.1 + cfg.paginationSize) 0 (some (lastBlock, pd.1))

/-- Terminal outcome of `run`, together with the list of
`(checkpoint, snapshot)` pairs persisted along the way (instrumentation: the
source hands each snapshot to `save_data` and keeps nothing). -/
inductive RunOutcome (L : Type) where
  /-- `break` on reaching the terminal block bound. -/
  | done (lastBlock retry : Nat) (snaps : List (Nat × L))
  /-- The `while` condition `retry < max_retries` failed. -/
  | retriesExhausted (lastBlock : Nat) (snaps : List (Nat × L))
  /-- A persistence call raised and the exception propagated. -/
  | saveFailed (lastBlock retry : Nat) (msg : String) (snaps : List (Nat × L))
  /-- Fuel ran out (the embedding bounds the number of iterations). -/
  | outOfFuel (lastBlock retry : Nat) (snaps : List (Nat × L))
deriving Repr, DecidableEq

/-- The `while retry < max_retries` loop of `run`, fuel-bounded. -/
def runLoop {L : Type} (cfg : RunCfg L) (env : Env L) :
    Nat → Nat → Nat → List (Nat × L) → RunOutcome L
  | 0, lastBlock, retry, snaps => .outOfFuel lastBlock retry snaps
  | fuel + 1, lastBlock, retry, snaps =>
    if retry < maxRetries then
      match runStep cfg env lastBlock retry with
      | .brk lb r => .done lb r snaps
      | .next lb r none => runLoop cfg env fuel lb r snaps
      | .next lb r (some p) => runLoop cfg env fuel lb r (snaps ++ [p])
      | .fail lb r msg => .saveFailed lb r msg snaps
    else .retriesExhausted lastBlock snaps

/-- Embedding of `run` (lines 102-142): start from `retry = 0` and
`last_block = 10854` and iterate. -/
def run {L : Type} (cfg : RunCfg L) (env : Env L) (fuel : Nat) : RunOutcome L :=
  runLoop cfg env fuel initialLastBlock 0 []

/-- The persisted `(checkpoint, snapshot)` trace of an outcome. -/
def RunOutcome.snaps {L : Type} : RunOutcome L → List (Nat × L)
  | .done _ _ s => s
  | .retriesExhausted _ s => s
  | .saveFailed _ _ _ s => s
  | .outOfFuel _ _ s => s

/-! ### Concrete instances for evaluating the embedding -/

/-- A concrete environment over the ledger type `List String` (a trace of the
fold operations applied, newest first). `"0xirm"` is the interest-rate-model
address; `"0xmarket"` is an ordinary market contract of category `"market"`;
`"Orphan"` is a tracked event name with no `(category, name)` dispatch entry;
the `"Boom"` fold operation raises. -/
def sampleEnv : Env (List String) where
  irmAddress := "0xirm"
  eventsMapping :=
    [("Deposit", "process_deposit"), ("Boom", "process_boom"), ("Orphan", "process_orphan")]
  interestRatesKeys := ["InterestStateUpdated"]
  addressesToEvents := fun a => if a = "0xmarket" then some "market" else none
  eventsMethodsMapping := fun p =>
    if p = ("market", "Deposit") then some (fun st ev => .ok (("deposit " ++ ev.fromAddress) :: st))
    else if p = ("market", "Boom") then some (fun _ _ => .error "boom")
    else none
  processIRM := fun st ev => .ok (("irm " ++ ev.keyName) :: st)
  emptyLedger := []

/-- The tracked event names of `sampleEnv` (`EVENTS_MAPPING` keys plus
`INTEREST_RATES_KEYS`), as computed inside `process_data`. -/
def sampleTrackedKeys : List String :=
  sampleEnv.eventsMapping.map Prod.fst ++ sampleEnv.interestRatesKeys

/-- An interest-rate-model event at block 100, intra-block id 1. -/
def evIRM100 : EventRecord := ⟨"0xirm", "InterestStateUpdated", some 100, 1⟩

/-- An ordinary deposit event at block 99, intra-block id 2. -/
def evDep99 : EventRecord := ⟨"0xmarket", "Deposit", some 99, 2⟩

/-- An ordinary deposit event at block 10860 (inside the first page). -/
def evDep10860 : EventRecord := ⟨"0xmarket", "Deposit", some 10860, 1⟩

/-- A tracked event whose `(category, event_name)` pair has no dispatch entry. -/
def evOrphan50 : EventRecord := ⟨"0xmarket", "Orphan", some 50, 1⟩

/-- An event whose fold operation raises. -/
def evBoom10855 : EventRecord := ⟨"0xmarket", "Boom", some 10855, 1⟩

/-- An interest-rate-model event with an unmapped name and no block number. -/
def evIRMNoBlock : EventRecord := ⟨"0xirm", "Withdrawal", none, 7⟩

/-- An ordinary event whose block number is below the checkpoint. -/
def evStale10 : EventRecord := ⟨"0xmarket", "Deposit", some 10, 3⟩

/-! ### C1 — fold order of a batch -/

/-- C1 is refuted: `process_data` sorts the whole batch by
`(block_number, id)` only, giving interest-rate-model events no priority. In a
batch holding the interest-rate-model event at block 100 and an ordinary
deposit at block 99, the fold order puts the ordinary event first, and
folding the batch applies the deposit before the rate update (the trace is
newest-first, so the deposit tag is deepest). -/
theorem C1_counterexample :
    foldOrder sampleTrackedKeys [evIRM100, evDep99] = [evDep99, evIRM100] ∧
    evIRM100.fromAddress = sampleEnv.irmAddress ∧
    evDep99.fromAddress ≠ sampleEnv.irmAddress ∧
    (processData sampleEnv 0 [evIRM100, evDep99]).1 =
      ["irm InterestStateUpdated", "deposit 0xmarket"] := by
  refine ⟨by decide, rfl, by decide, by decide⟩

/-- C1 (amended): the fold order produced before applying events is the
batch's tracked rows sorted ascending by `(block_number, id)`, uniformly
across interest-rate-model and ordinary events — interest-rate-model events
receive no priority tier. -/
theorem C1_fold_order_is_block_id_sort (trackedKeys : List String) (data : List EventRecord) :
    (foldOrder trackedKeys data).Sorted evLeR ∧
    (foldOrder trackedKeys data).Perm
      (data.filter (fun e => trackedKeys.contains e.keyName)) :=
  ⟨List.sorted_insertionSort evLeR _, List.perm_insertionSort evLeR _⟩

/-! ### C5 — unconditional interest-rate-model routing -/

/-- C5: any record whose `from_address` equals the interest-rate-model address
is routed to the interest-rate-model fold, whatever its `event_name` or block
number, and the ordinary per-address/per-event-name dispatch is never
consulted (the result is determined by `processIRM` alone). -/
theorem C5_irm_address_routes_to_irm_fold {L : Type} (env : Env L) (mn : String)
    (lb : Nat) (st : L) (ev : EventRecord) (h : ev.fromAddress = env.irmAddress) :
    processEvent env mn lb st ev =
      match env.processIRM st ev with
      | .ok st2 => (lb, st2, false)
      | .error _ => (lb, st, true) := by
  unfold processEvent
  rw [if_pos h]

/-- Witness for C5 at a concrete record whose `event_name` is not in any
dispatch table and whose block number is missing. -/
theorem C5_witness :
    evIRMNoBlock.fromAddress = sampleEnv.irmAddress ∧
    processEvent sampleEnv "" 5 [] evIRMNoBlock =
      match sampleEnv.processIRM [] evIRMNoBlock with
      | .ok st2 => (5, st2, false)
      | .error _ => (5, [], true) :=
  ⟨rfl, C5_irm_address_routes_to_irm_fold sampleEnv "" 5 [] evIRMNoBlock rfl⟩

/-! ### C10 — silent drop of stale or blockless ordinary events -/

/-- C10: an ordinary record whose block number is missing, zero, or strictly
below the current `last_block` invokes no ledger operation: the ledger, the
checkpoint and the log are all left untouched. Records from the
interest-rate-model address are exempt: they are folded whatever their block
number. -/
theorem C10_stale_ordinary_event_dropped {L : Type} (env : Env L) (mn : String)
    (lb : Nat) (st : L) (ev : EventRecord)
    (hna : ev.fromAddress ≠ env.irmAddress)
    (hbad : ev.blockNumber = none ∨ ev.blockNumber = some 0 ∨
      ∃ bn, ev.blockNumber = some bn ∧ bn < lb) :
    processEvent env mn lb st ev = (lb, st, false) ∧
    ∀ ev2 : EventRecord, ev2.fromAddress = env.irmAddress →
      processEvent env mn lb st ev2 =
        match env.processIRM st ev2 with
        | .ok st2 => (lb, st2, false)
        | .error _ => (lb, st, true) := by
  constructor
  · unfold processEvent
    rw [if_neg hna]
    rcases hbad with hb | hb | ⟨bn, hb, hlt⟩
    · rw [hb]
    · rw [hb]
      simp
    · rw [hb]
      have hcond : ¬(bn ≠ 0 ∧ lb ≤ bn) := by omega
      simp [hcond]
  · intro ev2 h2
    unfold processEvent
    rw [if_pos h2]

/-- Witness for C10 at a deposit record at block 10 with the checkpoint at
100, and at the blockless interest-rate-model record for the exemption. -/
theorem C10_witness :
    evStale10.fromAddress ≠ sampleEnv.irmAddress ∧
    (processEvent sampleEnv "" 100 [] evStale10 = (100, [], false) ∧
      ∀ ev2 : EventRecord, ev2.fromAddress = sampleEnv.irmAddress →
        processEvent sampleEnv "" 100 [] ev2 =
          match sampleEnv.processIRM [] ev2 with
          | .ok st2 => (100, st2, false)
          | .error _ => (100, [], true)) :=
  ⟨by decide,
    C10_stale_ordinary_event_dropped sampleEnv "" 100 [] evStale10 (by decide)
      (Or.inr (Or.inr ⟨10, rfl, by omega⟩))⟩

/-! ### Monotonicity of the checkpoint through folding -/

/-- `process_event` never decreases `self.last_block`: it assigns it only to a
block number that passed the `block_number >= self.last_block` guard. -/
theorem processEvent_lastBlock_mono {L : Type} (env : Env L) (mn : String)
    (lb : Nat) (st : L) (ev : EventRecord) : lb ≤ (processEvent env mn lb st ev).1 := by
  unfold processEvent
  split
  · split <;> simp
  · rcases hb : ev.blockNumber with _ | bn
    · simp
    · dsimp only
      split
      · rename_i hcond
        rcases hcond with ⟨h0, hge⟩
        split
        · simpa using hge
        · split
          · simpa using hge
          · split <;> simpa using hge
      · simp

/-- Folding a batch never decreases `self.last_block`. -/
theorem foldEvents_lastBlock_mono {L : Type} (env : Env L) :
    ∀ (l : List EventRecord) (acc : Nat × L × Nat), acc.1 ≤ (foldEvents env acc l).1 := by
  intro l
  induction l with
  | nil => intro acc; exact le_refl _
  | cons ev rest ih =>
    intro acc
    obtain ⟨lb, st, errs⟩ := acc
    simp only [foldEvents]
    have h := ih ((processEvent env ((env.eventsMapping.lookup ev.keyName).getD "") lb st ev).1,
      (processEvent env ((env.eventsMapping.lookup ev.keyName).getD "") lb st ev).2.1,
      errs + (if (processEvent env ((env.eventsMapping.lookup ev.keyName).getD "") lb st ev).2.2
        then 1 else 0))
    exact le_trans
      (processEvent_lastBlock_mono env ((env.eventsMapping.lookup ev.keyName).getD "") lb st ev) h

/-- `process_data` never decreases `self.last_block`. -/
theorem processData_lastBlock_mono {L : Type} (env : Env L) (lb : Nat)
    (data : List EventRecord) : lb ≤ (processData env lb data).2.1 :=
  foldEvents_lastBlock_mono env
    (foldOrder (env.eventsMapping.map Prod.fst ++ env.interestRatesKeys) data)
    (lb, env.emptyLedger, 0)

/-! ### C2 — checkpoint arithmetic across iterations -/

/-- A run configuration whose first page holds one deposit at block 10860;
every later page is empty; persistence always succeeds. -/
def cfgC2 : RunCfg (List String) where
  paginationSize := 10
  getData := fun _ => []
  getAddressesData := fun lb => if lb = 10854 then [evDep10860] else []
  saveData := fun _ => .ok ()
  saveInterestRateData := .ok ()

/-- C2 is refuted: in the very first successful iteration, `process_event`
assigns `self.last_block = 10860` (the event's block) before `run` adds the
pagination size, so the checkpoint becomes `10870`, not
`initial + 1 × pageSize = 10864`. -/
theorem C2_counterexample :
    runStep cfgC2 sampleEnv 10854 0 = .next 10870 0 (some (10854, ["deposit 0xmarket"])) ∧
    10870 ≠ 10854 + 1 * cfgC2.paginationSize := by
  refine ⟨by decide, by decide⟩

/-- C2 (amended): each loop iteration that continues — empty or successful —
advances the checkpoint by *at least* the pagination size (exactly the
pagination size on top of any in-batch advancement of `last_block` to the
highest qualifying event block), so after `N` iterations the checkpoint is at
least `initial + N × pageSize` and is strictly increasing whenever the
pagination size is positive; equality can fail on successful batches. -/
theorem C2_checkpoint_advances_at_least_pageSize {L : Type} (cfg : RunCfg L) (env : Env L)
    (lb retry lb2 r2 : Nat) (s : Option (Nat × L))
    (h : runStep cfg env lb retry = .next lb2 r2 s) :
    lb + cfg.paginationSize ≤ lb2 := by
  unfold runStep at h
  split at h
  · exact absurd h (by simp)
  · dsimp only at h
    split at h
    · rw [StepRes.next.injEq] at h
      omega
    · split at h
      · exact absurd h (by simp)
      · split at h
        · exact absurd h (by simp)
        · rw [StepRes.next.injEq] at h
          have := processData_lastBlock_mono env lb
            (cfg.getData lb ++ cfg.getAddressesData lb)
          omega

/-- Witness for C2's amended theorem at the concrete first iteration of
`cfgC2`. -/
theorem C2_witness :
    runStep cfgC2 sampleEnv 10854 0 = .next 10870 0 (some (10854, ["deposit 0xmarket"])) ∧
    10854 + cfgC2.paginationSize ≤ 10870 :=
  ⟨by decide,
    C2_checkpoint_advances_at_least_pageSize cfgC2 sampleEnv 10854 0 10870 0
      (some (10854, ["deposit 0xmarket"])) (by decide)⟩

/-! ### C3 — the empty-batch test ignores the interest-rate-model fetch -/

/-- A run configuration whose interest-rate-model fetch always returns one
event while the ordinary fetch returns nothing. -/
def cfgC3 : RunCfg (List String) where
  paginationSize := 10
  getData := fun _ => [evIRM100]
  getAddressesData := fun _ => []
  saveData := fun _ => .ok ()
  saveInterestRateData := .ok ()

/-- C3 is refuted: `run` tests `if not data:` on the *ordinary* fetch result
alone, so an iteration whose combined batch is non-empty (the
interest-rate-model fetch returned an event) still takes the empty-batch path
— checkpoint advanced by the pagination size, retry counter incremented,
nothing processed. -/
theorem C3_counterexample :
    cfgC3.getData 10854 ++ cfgC3.getAddressesData 10854 ≠ [] ∧
    runStep cfgC3 sampleEnv 10854 0 = .next (10854 + cfgC3.paginationSize) 1 none := by
  refine ⟨by decide, by decide⟩

/-- C3 (amended): below the terminal block bound, the empty-batch path
(advance by the pagination size, increment the retry counter, process
nothing) is taken exactly when the *ordinary* fetch returns no events; the
interest-rate-model fetch result plays no part in the test. -/
theorem C3_empty_path_iff_ordinary_empty {L : Type} (cfg : RunCfg L) (env : Env L)
    (lb retry : Nat) (hlb : lb < lastBlockBound) :
    runStep cfg env lb retry = .next (lb + cfg.paginationSize) (retry + 1) none ↔
      cfg.getAddressesData lb = [] := by
  unfold runStep
  rw [if_neg (by omega)]
  dsimp only
  constructor
  · intro h
    by_contra hne
    rw [if_neg hne] at h
    split at h
    · exact absurd h (by simp)
    · split at h
      · exact absurd h (by simp)
      · rw [StepRes.next.injEq] at h
        omega
  · intro h
    rw [if_pos h]

/-- Witness for C3's amended theorem at the first iteration of `cfgC3`. -/
theorem C3_witness :
    (runStep cfgC3 sampleEnv 10854 0 = .next (10854 + cfgC3.paginationSize) (0 + 1) none ↔
      cfgC3.getAddressesData 10854 = []) ∧
    cfgC3.getAddressesData 10854 = [] :=
  ⟨C3_empty_path_iff_ordinary_empty cfgC3 sampleEnv 10854 0 (by decide), rfl⟩

/-! ### C4 — persistence failure -/

/-- A run configuration identical to `cfgC2` except that persisting the
snapshot always raises. -/
def cfgC4 : RunCfg (List String) where
  paginationSize := 10
  getData := fun _ => []
  getAddressesData := fun lb => if lb = 10854 then [evDep10860] else []
  saveData := fun _ => .error "db down"
  saveInterestRateData := .ok ()

/-- C4 is refuted on its last clause: when `save_data` raises, the loop does
stop and the pagination advancement is skipped, but `self.last_block` had
already been advanced to 10860 by `process_event` while folding the batch, so
state observable after the failure does reflect an advanced checkpoint (a
restart from it would skip blocks 10854-10859). -/
theorem C4_counterexample :
    runLoop cfgC4 sampleEnv 5 10854 0 [] = .saveFailed 10860 0 "db down" [] ∧
    10854 < 10860 := ⟨by decide, by decide⟩

/-- C4 (amended): if persisting the snapshot for a batch raises, the loop
stops at once with the exception, the pagination advancement for that batch
never happens and no snapshot is recorded for it; the checkpoint on exit is
whatever `process_data` left in `self.last_block` — at least the incoming
checkpoint, but possibly advanced to the highest qualifying event block of
the failed batch. -/
theorem C4_save_failure_stops_loop {L : Type} (cfg : RunCfg L) (env : Env L)
    (fuel lb retry : Nat) (snaps : List (Nat × L)) (msg : String)
    (hretry : retry < maxRetries) (hlb : lb < lastBlockBound)
    (hdata : cfg.getAddressesData lb ≠ [])
    (hsave : cfg.saveData
      (processData env lb (cfg.getData lb ++ cfg.getAddressesData lb)).1 = .error msg) :
    runLoop cfg env (fuel + 1) lb retry snaps =
      .saveFailed (processData env lb (cfg.getData lb ++ cfg.getAddressesData lb)).2.1
        retry msg snaps ∧
    lb ≤ (processData env lb (cfg.getData lb ++ cfg.getAddressesData lb)).2.1 := by
  refine ⟨?_, processData_lastBlock_mono env lb _⟩
  have hstep : runStep cfg env lb retry =
      .fail (processData env lb (cfg.getData lb ++ cfg.getAddressesData lb)).2.1 retry msg := by
    simp only [runStep]
    rw [if_neg (by omega), if_neg hdata, hsave]
  simp only [runLoop]
  rw [if_pos hretry, hstep]

/-- Witness for C4's amended theorem at the failing first iteration of
`cfgC4`. -/
theorem C4_witness :
    runLoop cfgC4 sampleEnv 1 10854 0 [] =
      .saveFailed (processData sampleEnv 10854
        (cfgC4.getData 10854 ++ cfgC4.getAddressesData 10854)).2.1 0 "db down" [] ∧
    10854 ≤ (processData sampleEnv 10854
      (cfgC4.getData 10854 ++ cfgC4.getAddressesData 10854)).2.1 :=
  C4_save_failure_stops_loop cfgC4 sampleEnv 0 10854 0 [] "db down" (by decide) (by decide)
    (by decide) rfl

/-! ### C6 — unknown dispatch pair -/

/-- C6: a record whose derived category exists but whose
`(category, event_name)` pair has no dispatch entry leaves the ledger
untouched, fires the exception log exactly once, and is simply skipped: the
fold of the batch continues with the remaining records (only `self.last_block`
is updated, since the source assigns it before the failing lookup). -/
theorem C6_unknown_pair_logged_and_skipped {L : Type} (env : Env L) (mn : String)
    (lb : Nat) (st : L) (ev : EventRecord) (bn : Nat) (cat : String)
    (hna : ev.fromAddress ≠ env.irmAddress)
    (hbn : ev.blockNumber = some bn) (h0 : bn ≠ 0) (hge : lb ≤ bn)
    (hcat : env.addressesToEvents ev.fromAddress = some cat)
    (hmap : env.eventsMethodsMapping (cat, ev.keyName) = none) :
    processEvent env mn lb st ev = (bn, st, true) ∧
    ∀ (errs : Nat) (rest : List EventRecord),
      foldEvents env (lb, st, errs) (ev :: rest) = foldEvents env (bn, st, errs + 1) rest := by
  have hpe : ∀ mn2 : String, processEvent env mn2 lb st ev = (bn, st, true) := by
    intro mn2
    unfold processEvent
    rw [if_neg hna, hbn]
    dsimp only
    rw [if_pos ⟨h0, hge⟩, hcat]
    dsimp only
    rw [hmap]
  refine ⟨hpe mn, ?_⟩
  intro errs rest
  simp [foldEvents, hpe]

/-- Witness for C6 at the `Orphan` record, folded ahead of a deposit that is
still processed. -/
theorem C6_witness :
    processEvent sampleEnv "" 10 [] evOrphan50 = (50, [], true) ∧
    foldEvents sampleEnv (10, [], 0) [evOrphan50, evDep99] =
      foldEvents sampleEnv (50, [], 0 + 1) [evDep99] := by
  have h := C6_unknown_pair_logged_and_skipped sampleEnv "" 10 [] evOrphan50 50 "market"
    (by decide) rfl (by decide) (by decide) rfl rfl
  exact ⟨h.1, h.2 0 [evDep99]⟩

/-! ### C7 — a raising fold operation -/

/-- A run configuration whose first page holds a record whose fold operation
raises, followed by a deposit; persistence succeeds. -/
def cfgC7 : RunCfg (List String) where
  paginationSize := 10
  getData := fun _ => []
  getAddressesData := fun lb => if lb = 10854 then [evBoom10855, evDep10860] else []
  saveData := fun _ => .ok ()
  saveInterestRateData := .ok ()

/-- C7: when the fold operation for a single record raises, the exception is
caught and logged, the ledger keeps its previous value (the record's effect
is skipped), the remaining records of the batch are still folded, and the
iteration still completes with the checkpoint advanced by the pagination
size on top of `process_data`'s final `last_block`. -/
theorem C7_fold_error_caught_batch_continues {L : Type} (env : Env L) (cfg : RunCfg L)
    (mn : String) (lb retry : Nat) (st : L) (ev : EventRecord) (bn : Nat) (cat : String)
    (op : L → EventRecord → Except String L) (msg : String)
    (hna : ev.fromAddress ≠ env.irmAddress)
    (hbn : ev.blockNumber = some bn) (h0 : bn ≠ 0) (hge : lb ≤ bn)
    (hcat : env.addressesToEvents ev.fromAddress = some cat)
    (hmap : env.eventsMethodsMapping (cat, ev.keyName) = some op)
    (hop : op st ev = .error msg)
    (hlb : lb < lastBlockBound) (hdata : cfg.getAddressesData lb ≠ [])
    (hsave : ∀ x, cfg.saveData x = .ok ()) (hsir : cfg.saveInterestRateData = .ok ()) :
    processEvent env mn lb st ev = (bn, st, true) ∧
    (∀ (errs : Nat) (rest : List EventRecord),
      foldEvents env (lb, st, errs) (ev :: rest) = foldEvents env (bn, st, errs + 1) rest) ∧
    runStep cfg env lb retry =
      .next ((processData env lb (cfg.getData lb ++ cfg.getAddressesData lb)).2.1 +
          cfg.paginationSize) 0
        (some (lb, (processData env lb (cfg.getData lb ++ cfg.getAddressesData lb)).1)) := by
  have hpe : ∀ mn2 : String, processEvent env mn2 lb st ev = (bn, st, true) := by
    intro mn2
    unfold processEvent
    rw [if_neg hna, hbn]
    dsimp only
    rw [if_pos ⟨h0, hge⟩, hcat]
    dsimp only
    rw [hmap]
    dsimp only
    rw [hop]
  refine ⟨hpe mn, ?_, ?_⟩
  · intro errs rest
    simp [foldEvents, hpe]
  · simp only [runStep]
    rw [if_neg (by omega), if_neg hdata, hsave, hsir]

/-- Witness for C7: the raising `Boom` record is logged and skipped, the
following deposit is still folded, and the iteration completes. -/
theorem C7_witness :
    processEvent sampleEnv "" 10854 [] evBoom10855 = (10855, [], true) ∧
    foldEvents sampleEnv (10854, [], 0) [evBoom10855, evDep10860] =
      foldEvents sampleEnv (10855, [], 0 + 1) [evDep10860] ∧
    runStep cfgC7 sampleEnv 10854 0 =
      .next ((processData sampleEnv 10854
          (cfgC7.getData 10854 ++ cfgC7.getAddressesData 10854)).2.1 +
          cfgC7.paginationSize) 0
        (some (10854, (processData sampleEnv 10854
          (cfgC7.getData 10854 ++ cfgC7.getAddressesData 10854)).1)) := by
  have h := C7_fold_error_caught_batch_continues sampleEnv cfgC7 "" 10854 0 [] evBoom10855
    10855 "market" (fun _ _ => .error "boom") "boom" (by decide) rfl (by decide) (by decide)
    rfl rfl rfl (by decide) (by decide) (fun x => rfl) rfl
  exact ⟨h.1, h.2.1 0 [evDep10860], h.2.2⟩

/-! ### C8 — always-empty fetches -/

/-- A run configuration whose fetches always return nothing, with a page size
that reaches the terminal block bound in one step. -/
def cfgC8 : RunCfg (List String) where
  paginationSize := 637098
  getData := fun _ => []
  getAddressesData := fun _ => []
  saveData := fun _ => .ok ()
  saveInterestRateData := .ok ()

/-- C8 is refuted: with fetches that always return empty batches the loop
does not run for `max_retries = 1000000` empty iterations — the hard-coded
terminal block bound 647952 is reached first (here after a single empty
iteration of pagination size 637098), so it ends in the block-bound `break`,
not in retry exhaustion, with a retry counter far below the bound and a
checkpoint far below `initial + retryBound × pageSize`. -/
theorem C8_counterexample :
    run cfgC8 sampleEnv 3 = .done 647952 1 [] ∧
    (1 : Nat) ≠ maxRetries ∧
    (647952 : Nat) ≠ initialLastBlock + maxRetries * cfgC8.paginationSize := by
  refine ⟨by decide, by decide, by decide⟩

/-- With an always-empty ordinary fetch and a positive pagination size,
every iteration below the block bound is an empty iteration, and the loop
reaches the block-bound `break` before the retry budget whenever enough
budget and fuel remain. -/
theorem runLoop_always_empty {L : Type} (cfg : RunCfg L) (env : Env L)
    (hempty : ∀ b, cfg.getAddressesData b = []) (hP : 1 ≤ cfg.paginationSize) :
    ∀ (fuel lb retry : Nat) (snaps : List (Nat × L)),
      lastBlockBound - lb < fuel →
      retry + (lastBlockBound - lb) < maxRetries →
      ∃ k, runLoop cfg env fuel lb retry snaps =
          .done (lb + k * cfg.paginationSize) (retry + k) snaps ∧
        lastBlockBound ≤ lb + k * cfg.paginationSize ∧
        ∀ j, j < k → lb + j * cfg.paginationSize < lastBlockBound := by
  intro fuel
  induction fuel with
  | zero => intro lb retry snaps hfuel hretry; exfalso; omega
  | succ n ih =>
    intro lb retry snaps hfuel hretry
    by_cases hlb : lastBlockBound ≤ lb
    · refine ⟨0, ?_, by simpa using hlb, by omega⟩
      have hstep : runStep cfg env lb retry = .brk lb retry := by
        simp only [runStep]
        rw [if_pos hlb]
      simp only [runLoop]
      rw [if_pos (show retry < maxRetries by omega), hstep]
      simp
    · have hstep : runStep cfg env lb retry =
          .next (lb + cfg.paginationSize) (retry + 1) none := by
        simp [runStep, hlb, hempty]
      obtain ⟨k, hk1, hk2, hk3⟩ := ih (lb + cfg.paginationSize) (retry + 1) snaps
        (by omega) (by omega)
      refine ⟨k + 1, ?_, ?_, ?_⟩
      · rw [show lb + (k + 1) * cfg.paginationSize =
            lb + cfg.paginationSize + k * cfg.paginationSize from by ring,
          show retry + (k + 1) = retry + 1 + k from by ring]
        simp only [runLoop]
        rw [if_pos (show retry < maxRetries by omega), hstep]
        exact hk1
      · rw [show lb + (k + 1) * cfg.paginationSize =
            lb + cfg.paginationSize + k * cfg.paginationSize from by ring]
        exact hk2
      · intro j hj
        rcases Nat.eq_zero_or_pos j with hj0 | hjpos
        · subst hj0
          simpa using lt_of_not_le hlb
        · obtain ⟨j2, rfl⟩ := Nat.exists_eq_succ_of_ne_zero (show j ≠ 0 from by omega)
          rw [show lb + (j2 + 1) * cfg.paginationSize =
              lb + cfg.paginationSize + j2 * cfg.paginationSize from by ring]
          exact hk3 j2 (by omega)

/-- C8 (amended): with fetches that always return empty ordinary batches and
a positive pagination size, the loop terminates through the terminal-block
`break` (the `DONE` state), after `k` empty iterations for the least `k`
whose checkpoint `10854 + k × pageSize` reaches the bound 647952 — retry
exhaustion is unreachable because the distance to the block bound is smaller
than the retry budget of 1000000. The retry counter counts only the
consecutive empty iterations, and any iteration that finds and processes
data resets it to zero. -/
theorem C8_empty_batches_end_at_block_bound {L : Type} (cfg : RunCfg L) (env : Env L)
    (fuel : Nat)
    (hempty : ∀ b, cfg.getAddressesData b = [])
    (hP : 1 ≤ cfg.paginationSize)
    (hfuel : lastBlockBound - initialLastBlock < fuel) :
    (∃ k, run cfg env fuel =
        .done (initialLastBlock + k * cfg.paginationSize) k [] ∧
      lastBlockBound ≤ initialLastBlock + k * cfg.paginationSize ∧
      ∀ j, j < k → initialLastBlock + j * cfg.paginationSize < lastBlockBound) ∧
    ∀ (cfg2 : RunCfg L) (lb r lb2 r2 : Nat) (s : Nat × L),
      runStep cfg2 env lb r = .next lb2 r2 (some s) → r2 = 0 := by
  constructor
  · obtain ⟨k, hk1, hk2, hk3⟩ := runLoop_always_empty cfg env hempty hP fuel
      initialLastBlock 0 [] hfuel (by decide)
    rw [Nat.zero_add] at hk1
    exact ⟨k, hk1, hk2, hk3⟩
  · intro cfg2 lb r lb2 r2 s h
    simp only [runStep] at h
    split at h
    · exact absurd h (by simp)
    · split at h
      · rw [StepRes.next.injEq] at h
        exact absurd h.2.2 (by simp)
      · split at h
        · exact absurd h (by simp)
        · split at h
          · exact absurd h (by simp)
          · rw [StepRes.next.injEq] at h
            exact h.2.1.symm

/-- Witness for C8's amended theorem on the concrete always-empty
configuration. -/
theorem C8_witness :
    (∃ k, run cfgC8 sampleEnv 637099 =
        .done (initialLastBlock + k * cfgC8.paginationSize) k [] ∧
      lastBlockBound ≤ initialLastBlock + k * cfgC8.paginationSize ∧
      ∀ j, j < k → initialLastBlock + j * cfgC8.paginationSize < lastBlockBound) ∧
    ∀ (cfg2 : RunCfg (List String)) (lb r lb2 r2 : Nat) (s : Nat × List String),
      runStep cfg2 sampleEnv lb r = .next lb2 r2 (some s) → r2 = 0 :=
  C8_empty_batches_end_at_block_bound cfgC8 sampleEnv 637099 (fun _ => rfl) (by decide)
    (by decide)

/-! ### C9 — snapshots never carry state across batches -/

/-- A snapshot recorded by `runStep` is exactly `process_data` of the
incoming checkpoint and the batch fetched at it. -/
theorem runStep_saved_snapshot {L : Type} (cfg : RunCfg L) (env : Env L)
    (lb retry lb2 r2 : Nat) (p : Nat × L)
    (h : runStep cfg env lb retry = .next lb2 r2 (some p)) :
    p = (lb, (processData env lb (cfg.getData lb ++ cfg.getAddressesData lb)).1) := by
  simp only [runStep] at h
  split at h
  · exact absurd h (by simp)
  · split at h
    · rw [StepRes.next.injEq] at h
      exact absurd h.2.2 (by simp)
    · split at h
      · exact absurd h (by simp)
      · split at h
        · exact absurd h (by simp)
        · rw [StepRes.next.injEq] at h
          exact (Option.some.inj h.2.2).symm

/-- Every `(checkpoint, snapshot)` pair the loop accumulates satisfies: the
snapshot is `process_data` — which starts from the fresh empty ledger — of
that pair's own checkpoint and the batch fetched there. -/
theorem runLoop_snaps_from_own_batch {L : Type} (cfg : RunCfg L) (env : Env L) :
    ∀ (fuel lb retry : Nat) (snaps : List (Nat × L)),
      (∀ p ∈ snaps,
        p.2 = (processData env p.1 (cfg.getData p.1 ++ cfg.getAddressesData p.1)).1) →
      ∀ p ∈ (runLoop cfg env fuel lb retry snaps).snaps,
        p.2 = (processData env p.1 (cfg.getData p.1 ++ cfg.getAddressesData p.1)).1 := by
  intro fuel
  induction fuel with
  | zero => intro lb retry snaps hacc p hp; exact hacc p hp
  | succ n ih =>
    intro lb retry snaps hacc p hp
    by_cases hr : retry < maxRetries
    · rcases hstep : runStep cfg env lb retry with ⟨lb2, r2⟩ | ⟨lb2, r2, s⟩ | ⟨lb2, r2, m⟩
      · simp only [runLoop] at hp
        rw [if_pos hr, hstep] at hp
        exact hacc p hp
      · rcases s with _ | q
        · simp only [runLoop] at hp
          rw [if_pos hr, hstep] at hp
          exact ih lb2 r2 snaps hacc p hp
        · simp only [runLoop] at hp
          rw [if_pos hr, hstep] at hp
          refine ih lb2 r2 (snaps ++ [q]) ?_ p hp
          intro q2 hq2
          rcases List.mem_append.mp hq2 with hq2 | hq2
          · exact hacc q2 hq2
          · have hq : q2 = q := by simpa using hq2
            have hsnap := runStep_saved_snapshot cfg env lb retry lb2 r2 q hstep
            rw [hq, hsnap]
      · simp only [runLoop] at hp
        rw [if_pos hr, hstep] at hp
        exact hacc p hp
    · simp only [runLoop] at hp
      rw [if_neg hr] at hp
      exact hacc p hp

/-- C9: every snapshot the ingestion loop persists is computed by
`process_data` — which builds a fresh, empty `NostraAlphaState` on every
call — from nothing but the batch fetched at that snapshot's own checkpoint
and the checkpoint itself: balances folded in one batch never carry over
into the ledger or snapshot of a later batch. -/
theorem C9_snapshots_fresh_per_batch {L : Type} (cfg : RunCfg L) (env : Env L)
    (fuel : Nat) (p : Nat × L) (hp : p ∈ (run cfg env fuel).snaps) :
    p.2 = (processData env p.1 (cfg.getData p.1 ++ cfg.getAddressesData p.1)).1 :=
  runLoop_snaps_from_own_batch cfg env fuel initialLastBlock 0 [] (by simp) p hp

/-- Witness for C9 at the snapshot persisted by `cfgC2`'s first iteration. -/
theorem C9_witness :
    (10854, ["deposit 0xmarket"]) ∈ (run cfgC2 sampleEnv 2).snaps ∧
    ((10854, ["deposit 0xmarket"]) : Nat × List String).2 =
      (processData sampleEnv (10854, ["deposit 0xmarket"]).1
        (cfgC2.getData (10854, ["deposit 0xmarket"]).1 ++
          cfgC2.getAddressesData (10854, ["deposit 0xmarket"]).1)).1 :=
  ⟨by decide,
    C9_snapshots_fresh_per_batch cfgC2 sampleEnv 2 (10854, ["deposit 0xmarket"]) (by decide)⟩

end NostraAlpha
